import Mathlib

/-!
Verification of the Thus installer (Manjaro fork of Cnchi) against its
natural-language specification.

The development shallowly embeds the algorithmic content of
`src/auto_partition.py` and `src/installation_process.py`:

* `AutoPartition.get_devices`, the partition-sizing arithmetic and the
  LUKS/LVM provisioning command sequence of `AutoPartition.run`, and the
  filesystem dispatch of `AutoPartition.mkfs`;
* the event channel (`queue_event` / `queue_fatal_event`), the rsync
  progress tracker (`FileCopyThread.run` chained by
  `InstallationProcess.install_system`), the fstab generator
  (`InstallationProcess.auto_fstab`) and the control flow of
  `InstallationProcess.run` as a trace of salient actions.

Subprocess invocations are represented as trace actions; machine state
that the Python code reads (whether a tool call succeeded, whether a
mount point is currently mounted, ...) is passed in explicitly as an
environment.  All definitions are executable.
-/

namespace Thus

/-! ### AutoPartition.get_devices (src/auto_partition.py lines 127-161) -/

/-- The five device paths resolved by `AutoPartition.get_devices`:
the tuple `(boot, swap, root, luks, lvm)`. -/
structure Devices where
  boot : String
  swap : String
  root : String
  luks : String
  lvm : String
deriving DecidableEq, Repr

/-- `AutoPartition.get_devices`.  `d` is `self.auto_device`; the partition
numbering depends on the boot mode, then the LVM branch redirects swap and
root to the volume-group paths, and the LUKS branch makes the raw
partition the container and the opened mapper device take over its role. -/
def get_devices (d : String) (uefi use_luks use_lvm : Bool) : Devices :=
  let boot := if uefi then d ++ "3" else d ++ "1"
  let swap0 := if uefi then d ++ "4" else d ++ "2"
  let root0 := if uefi then d ++ "5" else d ++ "3"
  -- if self.lvm: lvm = root; swap/root become the ManjaroVG logical volumes
  let lvm1 := if use_lvm then root0 else ""
  let swap1 := if use_lvm then "/dev/ManjaroVG/ManjaroSwap" else swap0
  let root1 := if use_lvm then "/dev/ManjaroVG/ManjaroRoot" else root0
  -- if self.luks: with lvm, luks = lvm and lvm = mapper; without, luks = root
  -- and root = mapper
  let luks2 := if use_luks then (if use_lvm then lvm1 else root1) else ""
  let lvm2 := if use_luks then (if use_lvm then "/dev/mapper/cryptManjaro" else lvm1) else lvm1
  let root2 := if use_luks then (if use_lvm then root1 else "/dev/mapper/cryptManjaro") else root1
  ⟨boot, swap1, root2, luks2, lvm2⟩

/-! ### Partition sizing (src/auto_partition.py lines 163-200)

The sizes are in MiB except `mem_total`, which the source reads from
`/proc/meminfo` in KiB.  `1572864` KiB is exactly `1536` MiB.  The source
computes `mem_total / 1024` with Python true division, hence ℚ. -/

/-- Swap size in MiB: 1536 unless total RAM (KiB) is at most 1572864 KiB,
in which case it is the RAM size converted to MiB. -/
def swap_part_size (mem_total : ℚ) : ℚ :=
  if mem_total ≤ 1572864 then mem_total / 1024 else 1536

/-- Fixed boot partition size in MiB. -/
def boot_part_size : ℚ := 200

/-- GUID-table reservation: only present under UEFI. -/
def guid_part_size (uefi : Bool) : ℚ := if uefi then 2 else 0

/-- EFI system partition reservation: only present under UEFI. -/
def uefisys_part_size (uefi : Bool) : ℚ := if uefi then 512 else 0

/-- The boot/swap/root sizes derived by `AutoPartition.run`. -/
structure Sizes where
  boot : ℚ
  swap : ℚ
  root : ℚ
deriving DecidableEq, Repr

/-- Sizing sequence of `AutoPartition.run`: subtract the UEFI reservations,
then the fixed boot size, then the swap size; root gets the remainder. -/
def plan_sizes (disc_size mem_total : ℚ) (uefi : Bool) : Sizes :=
  let disc1 := disc_size - guid_part_size uefi - uefisys_part_size uefi
  let disc2 := disc1 - boot_part_size
  let swap := swap_part_size mem_total
  let disc3 := disc2 - swap
  ⟨boot_part_size, swap, disc3⟩

/-- Partition numbers and sgdisk labels created by the UEFI branch of
`AutoPartition.run` (lines 223-231). -/
def uefi_partition_names (use_lvm : Bool) : List (Nat × String) :=
  [(1, "BIOS_GRUB"), (2, "UEFI_SYSTEM"), (3, "MANJARO_BOOT")] ++
    (if use_lvm then [(4, "MANJARO_LVM")]
     else [(4, "MANJARO_SWAP"), (5, "MANJARO_ROOT")])

/-! ### LUKS/LVM/format command sequence (src/auto_partition.py lines 261-297) -/

/-- Provisioning commands issued by the tail of `AutoPartition.run`. -/
inductive PCmd
  | luksWipe (dev : String)
  | luksFormat (dev : String)
  | luksOpen (dev : String) (name : String)
  | pvcreate (dev : String)
  | vgcreate (vg dev : String)
  | lvcreate (lv vg : String)
  | mkfsOn (dev fstype mountpoint label : String)
deriving DecidableEq, Repr

/-- The command sequence after `get_devices`: the LUKS block (wipe the
container header, format, open as `cryptManjaro`), the LVM block
(physical volume, `ManjaroVG`, `ManjaroRoot` and `ManjaroSwap` logical
volumes) and the three `mkfs` calls, root first. -/
def luks_lvm_setup (d : String) (uefi use_luks use_lvm : Bool) : List PCmd :=
  let devs := get_devices d uefi use_luks use_lvm
  (if use_luks then
    [PCmd.luksWipe devs.luks, PCmd.luksFormat devs.luks,
     PCmd.luksOpen devs.luks "cryptManjaro"]
   else []) ++
  (if use_lvm then
    [PCmd.pvcreate devs.lvm, PCmd.vgcreate "ManjaroVG" devs.lvm,
     PCmd.lvcreate "ManjaroRoot" "ManjaroVG",
     PCmd.lvcreate "ManjaroSwap" "ManjaroVG"]
   else []) ++
  [PCmd.mkfsOn devs.root "ext4" "/" "ManjaroRoot",
   PCmd.mkfsOn devs.swap "swap" "" "ManjaroSwap",
   PCmd.mkfsOn devs.boot "ext2" "/boot" "ManjaroBoot"]

/-! ### AutoPartition.mkfs (src/auto_partition.py lines 70-125) -/

/-- Observable actions of one `AutoPartition.mkfs` call: shell commands
issued and log records written. -/
inductive MkfsAction
  | call (cmd : String)
  | logError (msg : String)
  | logWarning (msg : String)
  | logDebug (msg : String)
deriving DecidableEq, Repr

/-- The `mkfs` dict of kind-to-command entries, with the command strings
built exactly as the Python `%`-format expressions build them. -/
def mkfs_dict (fs_options label_name device btrfs_devices : String) :
    List (String × String) :=
  [("xfs", "mkfs.xfs " ++ fs_options ++ " -L " ++ label_name ++ " -f " ++ device),
   ("jfs", "yes | mkfs.jfs " ++ fs_options ++ " -L " ++ label_name ++ " " ++ device),
   ("reiserfs", "yes | mkreiserfs " ++ fs_options ++ " -l " ++ label_name ++ " " ++ device),
   ("ext2", "mkfs.ext2 -L " ++ fs_options ++ " " ++ label_name ++ " " ++ device),
   ("ext3", "mke2fs " ++ fs_options ++ " -L " ++ label_name ++ " -t ext3 " ++ device),
   ("ext4", "mke2fs " ++ fs_options ++ " -L " ++ label_name ++ " -t ext4 " ++ device),
   ("btrfs", "mkfs.btrfs " ++ fs_options ++ " -L " ++ label_name ++ " " ++ btrfs_devices),
   ("nilfs2", "mkfs.nilfs2 " ++ fs_options ++ " -L " ++ label_name ++ " " ++ device),
   ("ntfs-3g", "mkfs.ntfs " ++ fs_options ++ " -L " ++ label_name ++ " " ++ device),
   ("vfat", "mkfs.vfat " ++ fs_options ++ " -n " ++ label_name ++ " " ++ device)]

/-- The keys of `mkfs_dict`. -/
def mkfs_supported : List String :=
  ["xfs", "jfs", "reiserfs", "ext2", "ext3", "ext4", "btrfs", "nilfs2", "ntfs-3g", "vfat"]

/-- Permission bits applied to the freshly mounted directory. -/
def mkfs_mode (mount_point : String) : String :=
  if mount_point = "/tmp" then "1777"
  else if mount_point = "/root" then "750"
  else "755"

/-- `AutoPartition.mkfs` as a total function on the action trace.
`tool_ok` tells whether the subprocess calls of the taken branch succeed
(a failing `check_call` raises `CalledProcessError`, which the source
catches).  The swap branch runs swapoff/mkswap/swapon; every other kind
goes through `mkfs_dict`; an unknown kind only logs an error and returns
before any command.  Every branch that returns normally past the format
step ends with the UUID/label debug line. -/
def mkfs (dest_dir device fs_type mount_point label_name fs_options
    btrfs_devices : String) (tool_ok : Bool) : List MkfsAction :=
  if fs_type = "swap" then
    (if tool_ok then
      [MkfsAction.call ("swapoff " ++ device),
       MkfsAction.call ("mkswap -L " ++ label_name ++ " " ++ device),
       MkfsAction.call ("swapon " ++ device)]
     else [MkfsAction.logWarning "CalledProcessError"]) ++
    [MkfsAction.logDebug ("Device details: " ++ device)]
  else
    match (mkfs_dict fs_options label_name device btrfs_devices).lookup fs_type with
    | none => [MkfsAction.logError ("Unkown filesystem type " ++ fs_type)]
    | some command =>
      if tool_ok then
        [MkfsAction.call command,
         MkfsAction.call ("mkdir -p " ++ dest_dir ++ mount_point),
         MkfsAction.call ("mount -t " ++ fs_type ++ " " ++ device ++ " " ++
           dest_dir ++ mount_point),
         MkfsAction.call ("chmod " ++ mkfs_mode mount_point ++ " " ++
           dest_dir ++ mount_point),
         MkfsAction.logDebug ("Device details: " ++ device)]
      else [MkfsAction.call command, MkfsAction.logError "CalledProcessError"]

/-- Specification of one requested filesystem, used to chain `mkfs` calls
the way `AutoPartition.run` does. -/
structure MkfsSpec where
  device : String
  fs_type : String
  mount_point : String
  label_name : String
  tool_ok : Bool
deriving DecidableEq, Repr

/-- A sequence of `mkfs` calls; the caller proceeds from each call to the
next regardless of the outcome of the previous one. -/
def mkfs_all (dest_dir : String) (specs : List MkfsSpec) : List MkfsAction :=
  (specs.map fun s =>
    mkfs dest_dir s.device s.fs_type s.mount_point s.label_name "" "" s.tool_ok).flatten

/-! ### Event channel (src/installation_process.py lines 192-205)

`queue_event` wraps `callback_queue.put_nowait` in `try/except queue.Full:
pass`: a full channel drops the event and the call returns at once.
`queue_fatal_event` sets the error/stopped flags, enqueues the `error`
event through the same `queue_event`, joins the queue (waits for the
consumer to drain it) and then calls `os._exit(0)`. -/

/-- The `ProgressEvent` union carried on the callback queue. -/
inductive Event
  | info (s : String)
  | debug (s : String)
  | warning (s : String)
  | error (s : String)
  | action (s : String)
  | percent (fraction : ℚ)
  | progressInfo (s : String)
  | pulse
  | finished
deriving DecidableEq, Repr

/-- The bounded mailbox between worker and observer. -/
structure Channel where
  capacity : Nat
  buffer : List Event
deriving DecidableEq, Repr

/-- `put_nowait`: appends when there is room, otherwise raises `queue.Full`
(reported here as `false`) leaving the buffer untouched. -/
def put_nowait (c : Channel) (e : Event) : Channel × Bool :=
  if c.buffer.length < c.capacity then ({ c with buffer := c.buffer ++ [e] }, true)
  else (c, false)

/-- `InstallationProcess.queue_event`: `put_nowait` with `queue.Full`
swallowed — the drop is silent and the worker is never blocked. -/
def queue_event (c : Channel) (e : Event) : Channel := (put_nowait c e).1

/-! ### InstallationProcess.run as an action trace (lines 207-445) -/

/-- Salient actions of `InstallationProcess.run`, in program order. -/
inductive Action
  | event (e : Event)
  | autoPartition
  | alongsidePrep
  | mount (dev dir : String)
  | joinQueue
  | exitProcess
  | installSystem
  | configureSystem
  | installBootloader
  | copyLog
  | umountSpecialDirs
  | umountSource (p : String)
  | umount (dir : String)
  | returnTrue
  | returnFalse
  | returnNone
deriving DecidableEq, Repr

/-- The trace of `queue_fatal_event`: queue the error (best effort), join
the callback queue so the consumer drains it, then `os._exit(0)`. -/
def fatalSeq (txt : String) : List Action :=
  [Action.event (Event.error txt), Action.joinQueue, Action.exitProcess]

/-- Channel effect of `queue_fatal_event`, paired with its action trace. -/
def queue_fatal_event (c : Channel) (txt : String) : Channel × List Action :=
  (queue_event c (Event.error txt), fatalSeq txt)

/-- `self.dest_dir`. -/
def dest_dir : String := "/install"

/-- The three `partition_mode` settings handled by `run`. -/
inductive Method
  | automatic
  | alongside
  | advanced
deriving DecidableEq, Repr

/-- Environment of one `run` invocation: the configuration it reads and
the outcome of each external step it performs. -/
structure RunEnv where
  method : Method
  /-- whether `AutoPartition` raised `CalledProcessError` (automatic mode) -/
  autoOk : Bool
  /-- boot partition returned by `fs.shrink` (alongside mode) -/
  shrinkBoot : String
  /-- root partition returned by `fs.shrink` (alongside mode) -/
  shrinkRoot : String
  /-- `self.mount_devices`: mount point → device -/
  mount_devices : List (String × String)
  /-- whether mounting root (and boot, when present) succeeded -/
  rootBootMountOk : Bool
  /-- whether mounting the secondary entry at a given path succeeded -/
  secondaryOk : String → Bool
  /-- whether the three `mkdir -p` calls for needed folders succeeded -/
  dirsOk : Bool
  /-- whether `install_system` completed without an escaping exception -/
  installOk : Bool
  /-- whether `configure_system` completed without an escaping exception -/
  configureOk : Bool
  /-- the `install_bootloader` setting -/
  wantBootloader : Bool
  /-- whether `install_bootloader` completed without an escaping exception -/
  bootloaderOk : Bool
  /-- whether `/source` and `/source_desktop` are mounted at finalize time -/
  sourcesMounted : Bool
  /-- whether `self.dest_dir` is mounted at finalize time -/
  destMounted : Bool

/-- `root_partition`: `mount_devices["/"]` (advanced/automatic tables) or
the `fs.shrink` result (alongside). -/
def rootPartOf (env : RunEnv) : String :=
  match env.method with
  | Method.alongside => env.shrinkRoot
  | _ => ((env.mount_devices.lookup "/").getD "")

/-- `boot_partition`: `mount_devices["/boot"]` when present, else "". -/
def bootPartOf (env : RunEnv) : String :=
  match env.method with
  | Method.alongside => env.shrinkBoot
  | _ => ((env.mount_devices.lookup "/boot").getD "")

/-- `swap_partition`: `mount_devices["swap"]` when present, else "". -/
def swapPartOf (env : RunEnv) : String :=
  ((env.mount_devices.lookup "swap").getD "")

/-- Mounting root and boot (lines 299-313): queue a debug event, mount
root, then boot when a `/boot` entry exists; a `CalledProcessError`
triggers `queue_fatal_event` and the function never continues. The bool
reports whether execution continues. -/
def mountRootBoot (env : RunEnv) : List Action × Bool :=
  if env.rootBootMountOk then
    ([Action.event (Event.debug ("Mounting partition " ++ rootPartOf env ++
        " into " ++ dest_dir ++ " directory")),
      Action.mount (rootPartOf env) dest_dir] ++
     (if (env.mount_devices.lookup "/boot").isSome then
       [Action.event (Event.debug ("Mounting partition " ++ bootPartOf env ++
          " into " ++ dest_dir ++ "/boot directory")),
        Action.mount (bootPartOf env) (dest_dir ++ "/boot")]
      else []), true)
  else
    ([Action.event (Event.debug ("Mounting partition " ++ rootPartOf env ++
        " into " ++ dest_dir ++ " directory"))] ++
     fatalSeq "Couldnt mount root and boot partitions", false)

/-- Advanced-mode secondary mounts (lines 316-330): every table entry whose
device is none of root/boot/swap is mounted under `dest_dir + path`; a
failure is logged, a debug event is queued and the loop continues. -/
def mountSecondary (env : RunEnv) : List Action :=
  if env.method = Method.advanced then
    (env.mount_devices.map fun pd =>
      if pd.2 ≠ rootPartOf env ∧ pd.2 ≠ bootPartOf env ∧ pd.2 ≠ swapPartOf env then
        [Action.event (Event.debug ("Mounting partition " ++ pd.2 ++ " into " ++
           (dest_dir ++ pd.1) ++ " directory"))] ++
        (if env.secondaryOk pd.1 then [Action.mount pd.2 (dest_dir ++ pd.1)]
         else [Action.event (Event.debug ("Cant mount " ++ pd.2 ++ " in " ++
           (dest_dir ++ pd.1)))])
      else []).flatten
  else []

/-- The success tail of `run` (lines 393-445): copy the log, unmount the
special dirs, the two squashfs sources when still mounted, every mount
table entry except `/`, `swap` and `""`, then `dest_dir` itself when
still mounted, and queue the final info and `finished` events. -/
def finalizeTail (env : RunEnv) : List Action :=
  [Action.copyLog, Action.umountSpecialDirs] ++
  (if env.sourcesMounted then
    [Action.umountSource "/source", Action.umountSource "/source_desktop"]
   else []) ++
  ((env.mount_devices.filter fun pd =>
      pd.1 != "/" && pd.1 != "swap" && pd.1 != "").map fun pd =>
    Action.umount (dest_dir ++ pd.1)) ++
  (if env.destMounted then [Action.umount dest_dir] else []) ++
  [Action.event (Event.info "Installation finished successfully."),
   Action.event Event.finished, Action.returnTrue]

/-- The guarded middle of `run` (lines 345-391): create the needed
folders (fatal on failure), then `install_system`, `configure_system` and
optionally `install_bootloader` inside one try block whose handlers all
call `queue_fatal_event`; only when everything succeeded does control
reach `finalizeTail`.  (The three handlers differ only in the queued
message; the generic `Unknown error` text is used here.) -/
def mainPhases (env : RunEnv) : List Action :=
  if env.dirsOk then
    [Action.event (Event.debug "Install System ..."), Action.installSystem] ++
    (if env.installOk then
      [Action.event (Event.debug "System installed."),
       Action.event (Event.debug "Configuring system ..."),
       Action.configureSystem] ++
      (if env.configureOk then
        [Action.event (Event.debug "System configured.")] ++
        (if env.wantBootloader then
          [Action.event (Event.debug "Installing bootloader ..."),
           Action.installBootloader] ++
          (if env.bootloaderOk then finalizeTail env else fatalSeq "Unknown error")
         else finalizeTail env)
       else fatalSeq "Unknown error")
     else fatalSeq "Unknown error")
  else fatalSeq "Cant create necessary directories on destination system"

/-- The actions of `mainPhases` preceding `finalizeTail` on a fully
successful pass. -/
def mainPrefix (env : RunEnv) : List Action :=
  [Action.event (Event.debug "Install System ..."), Action.installSystem,
   Action.event (Event.debug "System installed."),
   Action.event (Event.debug "Configuring system ..."),
   Action.configureSystem,
   Action.event (Event.debug "System configured.")] ++
  (if env.wantBootloader then
    [Action.event (Event.debug "Installing bootloader ..."), Action.installBootloader]
   else [])

/-- `InstallationProcess.run`.  Automatic mode provisions with
`AutoPartition` (an error queues an `error` event and returns);
alongside/advanced mount root and boot (fatal on failure); advanced then
best-effort mounts the secondary entries; all modes continue into
`mainPhases`. -/
def run (env : RunEnv) : List Action :=
  match env.method with
  | Method.automatic =>
    [Action.event (Event.debug "Creating partitions and their filesystems")] ++
    (if env.autoOk then [Action.autoPartition] ++ mainPhases env
     else [Action.event (Event.error "Error creating partitions and their filesystems"),
           Action.returnNone])
  | Method.alongside =>
    [Action.alongsidePrep] ++
    (let mrb := mountRootBoot env
     mrb.1 ++ (if mrb.2 then mainPhases env else []))
  | Method.advanced =>
    (let mrb := mountRootBoot env
     mrb.1 ++ (if mrb.2 then mountSecondary env ++ mainPhases env else []))

/-- Whether control reaches `mainPhases`. -/
def reachesPhases (env : RunEnv) : Bool :=
  match env.method with
  | Method.automatic => env.autoOk
  | _ => env.rootBootMountOk

/-- Whether all guarded phases succeed, so that `finalizeTail` runs. -/
def successPhases (env : RunEnv) : Bool :=
  env.dirsOk && env.installOk && env.configureOk &&
    (!env.wantBootloader || env.bootloaderOk)

/-- The actions of `run` preceding `mainPhases` when control reaches the
guarded phases. -/
def runPhasesPre (env : RunEnv) : List Action :=
  match env.method with
  | Method.automatic =>
    [Action.event (Event.debug "Creating partitions and their filesystems"),
     Action.autoPartition]
  | Method.alongside => [Action.alongsidePrep] ++ (mountRootBoot env).1
  | Method.advanced => (mountRootBoot env).1 ++ mountSecondary env

/-- The actions of `run` preceding `finalizeTail` on a fully successful
pass. -/
def runPre (env : RunEnv) : List Action :=
  runPhasesPre env ++ mainPrefix env

/-- Actions that unmount something. -/
def isUmountAction : Action → Bool
  | Action.umountSpecialDirs => true
  | Action.umountSource _ => true
  | Action.umount _ => true
  | _ => false

/-- A full channel of capacity one. -/
def fullChannel : Channel := ⟨1, [Event.info "x"]⟩

/-- An advanced-mode run in which every step succeeds. -/
def envSuccess : RunEnv :=
  ⟨Method.advanced, true, "", "", [("/", "/dev/sda3")], true, fun _ => true,
   true, true, true, false, true, true, true⟩

/-- An advanced-mode run in which `install_system` raises. -/
def envInstallFail : RunEnv :=
  ⟨Method.advanced, true, "", "", [("/", "/dev/sda3"), ("/boot", "/dev/sda1")],
   true, fun _ => true, true, false, true, false, true, true, true⟩

/-- An advanced-mode run in which mounting the secondary `/home` entry
fails while everything else succeeds. -/
def envSecondaryFail : RunEnv :=
  ⟨Method.advanced, true, "", "",
   [("/", "/dev/sda3"), ("/boot", "/dev/sda1"), ("/home", "/dev/sda4")],
   true, fun p => !(p == "/home"), true, true, true, false, true, true, true⟩

/-- An advanced-mode run in which mounting root/boot fails. -/
def envRootMountFail : RunEnv :=
  ⟨Method.advanced, true, "", "",
   [("/", "/dev/sda3"), ("/boot", "/dev/sda1"), ("/home", "/dev/sda4")],
   false, fun _ => true, true, true, true, false, true, true, true⟩

/-! ### InstallationProcess.auto_fstab (lines 615-685) -/

/-- Python `sub in s` on strings: substring containment, checked at every
start position. -/
def strContains (s sub : String) : Bool :=
  (List.range (s.toList.length + 1)).any
    fun i => ((s.toList.drop i).take sub.toList.length) == sub.toList

/-- Inputs of `auto_fstab`: the mount table, the device→filesystem table,
the UUID reported by `fs.get_info` for each device, and the SSD flags
(`self.ssd`, a device-name → bool mapping; `i in self.mount_devices[path]`
is a substring test). -/
structure FstabEnv where
  mount_devices : List (String × String)
  fs_devices : List (String × String)
  uuidOf : String → String
  ssd : List (String × Bool)

/-- The SSD loop of `auto_fstab` for one entry: each matching flagged
device name resets the options to `defaults,noatime,nodiratime`, appends
`,discard` for TRIM-capable filesystems, and marks `root_ssd` when the
entry is `/`. -/
def ssd_fold (parti myfmt path : String) (ssd : List (String × Bool))
    (opts : String) (root_ssd : Bool) : String × Bool :=
  ssd.foldl
    (fun acc ib =>
      if strContains parti ib.1 && ib.2 then
        let o := "defaults,noatime,nodiratime"
        let o := if myfmt = "ext4" ∨ myfmt = "btrfs" ∨ myfmt = "jfs" ∨
            myfmt = "xfs" ∨ myfmt = "swap" then o ++ ",discard" else o
        (o, acc.2 || (path = "/"))
      else acc)
    (opts, root_ssd)

/-- One iteration of the `auto_fstab` loop: skip devices without a
filesystem entry, emit swap lines immediately with default options and
pass 0, map `fat` kinds to `vfat`, skip empty mount points, give `/` the
`rw,relatime,data=ordered` options and pass 1, then apply the SSD loop.
Returns the emitted lines and the updated `root_ssd` flag. -/
def fstab_entry (env : FstabEnv) (root_ssd : Bool) (pd : String × String) :
    List String × Bool :=
  let path := pd.1
  let parti := pd.2
  let opts := "defaults"
  let chk := "0"
  let uuid := env.uuidOf parti
  match env.fs_devices.lookup parti with
  | none => ([], root_ssd)
  | some myfmt =>
    if strContains myfmt "swap" then
      (["UUID=" ++ uuid ++ " " ++ path ++ " " ++ myfmt ++ " " ++ opts ++ " 0 " ++ chk],
       root_ssd)
    else
      let myfmt := if strContains myfmt "fat" then "vfat" else myfmt
      if path = "" then ([], root_ssd)
      else
        let oc := if path = "/" then ("rw,relatime,data=ordered", "1") else (opts, chk)
        let or2 := ssd_fold parti myfmt path env.ssd oc.1 root_ssd
        (["UUID=" ++ uuid ++ " " ++ path ++ " " ++ myfmt ++ " " ++ or2.1 ++ " 0 " ++ oc.2],
         or2.2)

/-- The fixed comment header of the generated fstab. -/
def fstab_header : List String :=
  ["# /etc/fstab: static file system information.",
   "#",
   "# Use blkid to print the universally unique identifier for a",
   "# device; this may be used with UUID= as a more robust way to name devices",
   "# that works even if disks are added and removed. See fstab(5).",
   "#",
   "# <file system> <mount point>   <type>  <options>       <dump>  <pass>",
   "#"]

/-- `InstallationProcess.auto_fstab`: the header, one line per mount table
entry with a known filesystem, and a tmpfs `/tmp` line when root sits on
a flagged SSD. -/
def auto_fstab (env : FstabEnv) : List String :=
  let br := env.mount_devices.foldl
    (fun acc pd =>
      let lr := fstab_entry env acc.2 pd
      (acc.1 ++ lr.1, lr.2))
    (([] : List String), false)
  fstab_header ++ br.1 ++
    (if br.2 then ["tmpfs /tmp tmpfs defaults,noatime,mode=1777 0 0"] else [])

/-- The concrete environment of claim C3: root on a device with UUID
`aaaa-1111` formatted ext4, swap on a device with UUID `bbbb-2222`, no SSD
flagged. -/
def fstabEnvC3 : FstabEnv where
  mount_devices := [("/", "/dev/sda3"), ("swap", "/dev/sda2")]
  fs_devices := [("/dev/sda3", "ext4"), ("/dev/sda2", "swap")]
  uuidOf := fun dev =>
    if dev = "/dev/sda3" then "aaaa-1111"
    else if dev = "/dev/sda2" then "bbbb-2222"
    else ""
  ssd := []

/-! ### FileCopyThread / install_system progress (lines 66-124, 447-511) -/

/-- One line of rsync `--progress` output as the reader loop classifies
it: a progress line matching `xfr#k, ir-chk=remaining/total`, or a
filename line. -/
inductive RsyncLine
  | progress (remaining total : ℤ)
  | filename (name : String)
deriving DecidableEq, Repr

/-- The `total - remaining` count parsed from each progress line. -/
def processedVals (lines : List RsyncLine) : List ℤ :=
  lines.filterMap fun l =>
    match l with
    | RsyncLine.progress r t => some (t - r)
    | RsyncLine.filename _ => none

/-- One iteration of `FileCopyThread.run`'s reader loop: a progress line
sets `num_files_copied = total_local - remaining + offset` and emits
`num/total_files` when the throttle (`num % 100 == 0`) fires; a filename
line only updates the copying label. -/
def copyStep (total_files offset : ℤ) (st : ℤ × List ℚ) (l : RsyncLine) :
    ℤ × List ℚ :=
  match l with
  | RsyncLine.progress rem tot =>
    let num := tot - rem + offset
    (num, st.2 ++ (if num % 100 = 0 then [(num : ℚ) / (total_files : ℚ)] else []))
  | RsyncLine.filename _ => st

/-- `FileCopyThread.run`: fold the reader loop over the subprocess output,
starting from `num_files_copied = 0`; the first component is the final
`num_files_copied` (stored back into `self.offset`), the second the
emitted percent values. -/
def fileCopyRun (total_files offset : ℤ) (lines : List RsyncLine) : ℤ × List ℚ :=
  lines.foldl (copyStep total_files offset) (0, [])

/-- The `num_files_copied` values produced by the progress lines of one
sub-phase at a given offset. -/
def numsOf (offset : ℤ) (lines : List RsyncLine) : List ℤ :=
  (processedVals lines).map (· + offset)

/-- The percent values one sub-phase emits: the throttled
(`num % 100 == 0`) counts divided by the precomputed total. -/
def emitsOf (total_files offset : ℤ) (lines : List RsyncLine) : List ℚ :=
  ((numsOf offset lines).filter fun n => n % 100 == 0).map
    fun n : ℤ => (n : ℚ) / (total_files : ℚ)

/-- The percent stream of `install_system`: the root-image sub-phase with
offset 0, the desktop-image sub-phase with offset `t.offset` (the first
sub-phase's final count), both against the one precomputed total, then
the forced final `1.00`. -/
def install_system_percents (total_files : ℤ) (lines1 lines2 : List RsyncLine) :
    List ℚ :=
  let r1 := fileCopyRun total_files 0 lines1
  let r2 := fileCopyRun total_files r1.1 lines2
  r1.2 ++ r2.2 ++ [1]

end Thus

namespace Thus

/-! ### Theorems for claims about the layout planner -/

/-- C4: the swap size computed by `AutoPartition.run` equals
`min 1536 (ram/1024)` MiB exactly, for every total-RAM value (KiB);
in particular 1 GiB of RAM gives 1024 MiB of swap and 4 GiB gives 1536. -/
theorem swap_size_min (mem_total : ℚ) :
    swap_part_size mem_total = min 1536 (mem_total / 1024) ∧
    swap_part_size 1048576 = 1024 ∧ swap_part_size 4194304 = 1536 := by
  refine ⟨?_, by norm_num [swap_part_size], by norm_num [swap_part_size]⟩
  unfold swap_part_size
  by_cases h : mem_total ≤ 1572864
  · rw [if_pos h, min_eq_right]
    rw [div_le_iff₀ (by norm_num : (0:ℚ) < 1024)]
    linarith
  · rw [if_neg h, min_eq_left]
    rw [le_div_iff₀ (by norm_num : (0:ℚ) < 1024)]
    push_neg at h
    linarith

/-- C5: with both `use_luks` and `use_lvm` set, the resolved devices nest
LUKS outside LVM: the raw root partition is the LUKS container, the opened
mapper device `/dev/mapper/cryptManjaro` is the LVM physical volume, and
the provisioning sequence formats LUKS on the raw partition and creates the
physical volume, the volume group and both logical volumes on the mapper
device — never the reverse nesting. -/
theorem luks_outer_lvm_inner (d : String) (uefi : Bool) :
    (get_devices d uefi true true).luks = (if uefi then d ++ "5" else d ++ "3") ∧
    (get_devices d uefi true true).lvm = "/dev/mapper/cryptManjaro" ∧
    luks_lvm_setup d uefi true true =
      [PCmd.luksWipe (if uefi then d ++ "5" else d ++ "3"),
       PCmd.luksFormat (if uefi then d ++ "5" else d ++ "3"),
       PCmd.luksOpen (if uefi then d ++ "5" else d ++ "3") "cryptManjaro",
       PCmd.pvcreate "/dev/mapper/cryptManjaro",
       PCmd.vgcreate "ManjaroVG" "/dev/mapper/cryptManjaro",
       PCmd.lvcreate "ManjaroRoot" "ManjaroVG",
       PCmd.lvcreate "ManjaroSwap" "ManjaroVG",
       PCmd.mkfsOn "/dev/ManjaroVG/ManjaroRoot" "ext4" "/" "ManjaroRoot",
       PCmd.mkfsOn "/dev/ManjaroVG/ManjaroSwap" "swap" "" "ManjaroSwap",
       PCmd.mkfsOn (if uefi then d ++ "3" else d ++ "1") "ext2" "/boot" "ManjaroBoot"] := by
  cases uefi <;> exact ⟨rfl, rfl, rfl⟩

/-- C6: partition numbering is boot=1, swap=2, root=3 under BIOS and
boot=3, swap=4, root=5 under UEFI (UEFI partitions 1 and 2 being
BIOS-GRUB and the EFI system partition), and switching the boot mode
changes neither the boot nor the swap size, root taking all remaining
space after the mode-specific reservations in both modes. -/
theorem partition_numbering (d : String) (disc_size mem_total : ℚ) :
    get_devices d false false false = ⟨d ++ "1", d ++ "2", d ++ "3", "", ""⟩ ∧
    get_devices d true false false = ⟨d ++ "3", d ++ "4", d ++ "5", "", ""⟩ ∧
    uefi_partition_names false =
      [(1, "BIOS_GRUB"), (2, "UEFI_SYSTEM"), (3, "MANJARO_BOOT"),
       (4, "MANJARO_SWAP"), (5, "MANJARO_ROOT")] ∧
    (plan_sizes disc_size mem_total true).boot = (plan_sizes disc_size mem_total false).boot ∧
    (plan_sizes disc_size mem_total true).swap = (plan_sizes disc_size mem_total false).swap ∧
    (∀ b : Bool, (plan_sizes disc_size mem_total b).root =
      disc_size - guid_part_size b - uefisys_part_size b - boot_part_size -
        swap_part_size mem_total) := by
  refine ⟨rfl, rfl, rfl, rfl, rfl, ?_⟩
  intro b
  cases b <;> rfl

/-- An unsupported kind is absent from the dispatch dict, whatever the
format strings are. -/
theorem lookup_mkfs_dict_eq_none (ft fo label dev bd : String)
    (h : ft ∉ mkfs_supported) :
    (mkfs_dict fo label dev bd).lookup ft = none := by
  simp only [mkfs_supported, List.mem_cons, List.not_mem_nil, or_false, not_or] at h
  obtain ⟨h1, h2, h3, h4, h5, h6, h7, h8, h9, h10⟩ := h
  have e1 : (ft == "xfs") = false := by simp [h1]
  have e2 : (ft == "jfs") = false := by simp [h2]
  have e3 : (ft == "reiserfs") = false := by simp [h3]
  have e4 : (ft == "ext2") = false := by simp [h4]
  have e5 : (ft == "ext3") = false := by simp [h5]
  have e6 : (ft == "ext4") = false := by simp [h6]
  have e7 : (ft == "btrfs") = false := by simp [h7]
  have e8 : (ft == "nilfs2") = false := by simp [h8]
  have e9 : (ft == "ntfs-3g") = false := by simp [h9]
  have e10 : (ft == "vfat") = false := by simp [h10]
  simp [mkfs_dict, List.lookup, e1, e2, e3, e4, e5, e6, e7, e8, e9, e10]

/-- C9: for every filesystem kind other than swap that is not in the
dispatch table, `mkfs` only reports an error and returns — no format, no
mount, no exception — and a surrounding sequence of `mkfs` calls carries
on past it unchanged. -/
theorem unknown_fs_kind_skipped (dd device ft mp label fo bd : String) (ok : Bool)
    (hswap : ft ≠ "swap") (hunk : ft ∉ mkfs_supported) :
    mkfs dd device ft mp label fo bd ok =
      [MkfsAction.logError ("Unkown filesystem type " ++ ft)] ∧
    ∀ s1 s2 : List MkfsSpec,
      mkfs_all dd (s1 ++ ⟨device, ft, mp, label, ok⟩ :: s2) =
        mkfs_all dd s1 ++
          MkfsAction.logError ("Unkown filesystem type " ++ ft) :: mkfs_all dd s2 := by
  have hl : ∀ fo2 bd2, (mkfs_dict fo2 label device bd2).lookup ft = none :=
    fun fo2 bd2 => lookup_mkfs_dict_eq_none ft fo2 label device bd2 hunk
  constructor
  · simp [mkfs, hswap, hl fo bd]
  · intro s1 s2
    simp [mkfs_all, mkfs, hswap, hl "" ""]

/-- Witness for C9 at the concrete unsupported kind `zfs`. -/
theorem unknown_fs_kind_skipped_witness :
    ("zfs" ≠ "swap" ∧ "zfs" ∉ mkfs_supported) ∧
    mkfs "/install" "/dev/sda5" "zfs" "/home" "Home" "" "" true =
      [MkfsAction.logError ("Unkown filesystem type " ++ "zfs")] :=
  ⟨⟨by decide, by decide⟩,
   (unknown_fs_kind_skipped "/install" "/dev/sda5" "zfs" "/home" "Home" "" "" true
     (by decide) (by decide)).1⟩

/-- C3 counterexample: on the claimed configuration the generated swap
line carries the mount-table key `swap` in the mount-point field, not
`none`; the claimed root line is produced, the claimed swap line is not. -/
theorem fstab_swap_line_counterexample :
    "UUID=bbbb-2222 none swap defaults 0 0" ∉ auto_fstab fstabEnvC3 ∧
    "UUID=aaaa-1111 / ext4 rw,relatime,data=ordered 0 1" ∈ auto_fstab fstabEnvC3 ∧
    "UUID=bbbb-2222 swap swap defaults 0 0" ∈ auto_fstab fstabEnvC3 := by
  refine ⟨by decide, by decide, by decide⟩

/-- C3 amended: the exact output on that configuration is the header
followed by `UUID=aaaa-1111 / ext4 rw,relatime,data=ordered 0 1` and
`UUID=bbbb-2222 swap swap defaults 0 0`. -/
theorem fstab_exact_lines :
    auto_fstab fstabEnvC3 = fstab_header ++
      ["UUID=aaaa-1111 / ext4 rw,relatime,data=ordered 0 1",
       "UUID=bbbb-2222 swap swap defaults 0 0"] := by
  decide

/-- C10: for every disk path and every LUKS/LVM flag combination, the boot
role resolves to disk path + "1" under BIOS and disk path + "3" under
UEFI; the flags never alter the boot entry. -/
theorem boot_device_frame (d : String) (uefi use_luks use_lvm : Bool) :
    (get_devices d uefi use_luks use_lvm).boot = (if uefi then d ++ "3" else d ++ "1") ∧
    (∀ l v : Bool, (get_devices d uefi use_luks use_lvm).boot =
      (get_devices d uefi l v).boot) := by
  constructor
  · cases uefi <;> cases use_luks <;> cases use_lvm <;> rfl
  · intro l v
    cases uefi <;> cases use_luks <;> cases use_lvm <;> cases l <;> cases v <;> rfl

/-! ### Helper lemmas about the run trace -/

/-- Membership in a conditional list implies membership in its then-branch. -/
theorem mem_ite_nil {α : Type} {b : Bool} {l : List α} {a : α}
    (h : a ∈ (if b = true then l else [])) : a ∈ l := by
  cases b
  · simp at h
  · simpa using h

/-- Every element of `finalizeTail` is the log copy, an unmount action, an
event or the return. -/
theorem finalizeTail_members (env : RunEnv) (a : Action) (ha : a ∈ finalizeTail env) :
    a = Action.copyLog ∨ a = Action.umountSpecialDirs ∨
    (∃ s, a = Action.umountSource s) ∨ (∃ d, a = Action.umount d) ∨
    (∃ e, a = Action.event e) ∨ a = Action.returnTrue := by
  unfold finalizeTail at ha
  simp only [List.mem_append] at ha
  rcases ha with (((ha | ha) | ha) | ha) | ha
  · simp only [List.mem_cons, List.not_mem_nil, or_false] at ha
    rcases ha with rfl | rfl
    · exact Or.inl rfl
    · exact Or.inr (Or.inl rfl)
  · have hb := mem_ite_nil ha
    simp only [List.mem_cons, List.not_mem_nil, or_false] at hb
    rcases hb with rfl | rfl
    · exact Or.inr (Or.inr (Or.inl ⟨_, rfl⟩))
    · exact Or.inr (Or.inr (Or.inl ⟨_, rfl⟩))
  · rcases List.mem_map.1 ha with ⟨pd, _, rfl⟩
    exact Or.inr (Or.inr (Or.inr (Or.inl ⟨_, rfl⟩)))
  · have hb := mem_ite_nil ha
    simp only [List.mem_cons, List.not_mem_nil, or_false] at hb
    subst hb
    exact Or.inr (Or.inr (Or.inr (Or.inl ⟨_, rfl⟩)))
  · simp only [List.mem_cons, List.not_mem_nil, or_false] at ha
    rcases ha with rfl | rfl | rfl
    · exact Or.inr (Or.inr (Or.inr (Or.inr (Or.inl ⟨_, rfl⟩))))
    · exact Or.inr (Or.inr (Or.inr (Or.inr (Or.inl ⟨_, rfl⟩))))
    · exact Or.inr (Or.inr (Or.inr (Or.inr (Or.inr rfl))))

/-- Every element of `mountSecondary` is a debug event or a mount. -/
theorem mountSecondary_members (env : RunEnv) (a : Action)
    (ha : a ∈ mountSecondary env) :
    (∃ e, a = Action.event (Event.debug e)) ∨ ∃ d dir, a = Action.mount d dir := by
  unfold mountSecondary at ha
  by_cases hm : env.method = Method.advanced
  · rw [if_pos hm] at ha
    rw [List.mem_flatten] at ha
    obtain ⟨l, hl, hal⟩ := ha
    rw [List.mem_map] at hl
    obtain ⟨pd, _, rfl⟩ := hl
    by_cases h1 : pd.2 ≠ rootPartOf env ∧ pd.2 ≠ bootPartOf env ∧ pd.2 ≠ swapPartOf env
    · rw [if_pos h1] at hal
      by_cases h2 : env.secondaryOk pd.1 = true
      · rw [if_pos h2] at hal
        simp only [List.cons_append, List.nil_append, List.mem_cons,
          List.not_mem_nil, or_false] at hal
        rcases hal with rfl | rfl
        · exact Or.inl ⟨_, rfl⟩
        · exact Or.inr ⟨_, _, rfl⟩
      · rw [if_neg h2] at hal
        simp only [List.cons_append, List.nil_append, List.mem_cons,
          List.not_mem_nil, or_false] at hal
        rcases hal with rfl | rfl
        · exact Or.inl ⟨_, rfl⟩
        · exact Or.inl ⟨_, rfl⟩
    · rw [if_neg h1] at hal
      simp at hal
  · rw [if_neg hm] at ha
    simp at ha

/-- A mount action in `mountSecondary` comes from a table entry whose
mount succeeded. -/
theorem mount_mem_mountSecondary (env : RunEnv) (d dir : String)
    (h : Action.mount d dir ∈ mountSecondary env) :
    ∃ q, (q, d) ∈ env.mount_devices ∧ env.secondaryOk q = true ∧
      dir = dest_dir ++ q := by
  unfold mountSecondary at h
  by_cases hm : env.method = Method.advanced
  · rw [if_pos hm] at h
    rw [List.mem_flatten] at h
    obtain ⟨l, hl, hal⟩ := h
    rw [List.mem_map] at hl
    obtain ⟨pd, hpd, rfl⟩ := hl
    by_cases h1 : pd.2 ≠ rootPartOf env ∧ pd.2 ≠ bootPartOf env ∧ pd.2 ≠ swapPartOf env
    · rw [if_pos h1] at hal
      by_cases h2 : env.secondaryOk pd.1 = true
      · rw [if_pos h2] at hal
        simp only [List.cons_append, List.nil_append, List.mem_cons,
          List.not_mem_nil, or_false] at hal
        rcases hal with hal | hal
        · exact absurd hal (by simp)
        · obtain ⟨hd, hdir⟩ := Action.mount.inj hal
          exact ⟨pd.1, by rw [hd]; simpa using hpd, h2, hdir⟩
      · rw [if_neg h2] at hal
        simp at hal
    · rw [if_neg h1] at hal
      simp at hal
  · rw [if_neg hm] at h
    simp at h

/-- Every element of `mainPrefix` is an event or a phase marker. -/
theorem mainPrefix_members (env : RunEnv) (a : Action) (ha : a ∈ mainPrefix env) :
    (∃ e, a = Action.event e) ∨ a = Action.installSystem ∨
    a = Action.configureSystem ∨ a = Action.installBootloader := by
  unfold mainPrefix at ha
  rcases List.mem_append.1 ha with h | h
  · simp only [List.mem_cons, List.not_mem_nil, or_false] at h
    rcases h with rfl | rfl | rfl | rfl | rfl | rfl
    · exact Or.inl ⟨_, rfl⟩
    · exact Or.inr (Or.inl rfl)
    · exact Or.inl ⟨_, rfl⟩
    · exact Or.inl ⟨_, rfl⟩
    · exact Or.inr (Or.inr (Or.inl rfl))
    · exact Or.inl ⟨_, rfl⟩
  · have hb := mem_ite_nil h
    simp only [List.mem_cons, List.not_mem_nil, or_false] at hb
    rcases hb with rfl | rfl
    · exact Or.inl ⟨_, rfl⟩
    · exact Or.inr (Or.inr (Or.inr rfl))

/-- When every phase succeeds, `mainPhases` is `mainPrefix` followed by
`finalizeTail`. -/
theorem mainPhases_success (env : RunEnv) (h : successPhases env = true) :
    mainPhases env = mainPrefix env ++ finalizeTail env := by
  unfold successPhases at h
  simp only [Bool.and_eq_true] at h
  obtain ⟨⟨⟨hd, hi⟩, hc⟩, hb⟩ := h
  cases hw : env.wantBootloader
  · simp [mainPhases, mainPrefix, hd, hi, hc, hw]
  · have hbt : env.bootloaderOk = true := by rw [hw] at hb; simpa using hb
    simp [mainPhases, mainPrefix, hd, hi, hc, hw, hbt]

/-- Every element of `mainPhases`, whatever the outcomes, is an event, a
phase marker, part of the fatal sequence or part of `finalizeTail` — in
particular never a mount. -/
theorem mainPhases_members (env : RunEnv) (a : Action) (ha : a ∈ mainPhases env) :
    (∃ e, a = Action.event e) ∨ a = Action.installSystem ∨
    a = Action.configureSystem ∨ a = Action.installBootloader ∨
    a = Action.joinQueue ∨ a = Action.exitProcess ∨ a = Action.copyLog ∨
    a = Action.umountSpecialDirs ∨ (∃ s, a = Action.umountSource s) ∨
    (∃ d, a = Action.umount d) ∨ a = Action.returnTrue := by
  have hfin : a ∈ finalizeTail env →
      (∃ e, a = Action.event e) ∨ a = Action.installSystem ∨
      a = Action.configureSystem ∨ a = Action.installBootloader ∨
      a = Action.joinQueue ∨ a = Action.exitProcess ∨ a = Action.copyLog ∨
      a = Action.umountSpecialDirs ∨ (∃ s, a = Action.umountSource s) ∨
      (∃ d, a = Action.umount d) ∨ a = Action.returnTrue := by
    intro hf
    rcases finalizeTail_members env a hf with h | h | h | h | h | h <;> tauto
  unfold mainPhases at ha
  split_ifs at ha <;>
    simp only [fatalSeq, List.cons_append, List.nil_append, List.mem_cons,
      List.mem_append, List.not_mem_nil, or_false] at ha <;>
    aesop

/-- When some phase fails, every element of `mainPhases` is an event, a
phase marker or part of the fatal sequence — never a log copy, an
unmount or the finished event. -/
theorem mainPhases_failure_members (env : RunEnv) (a : Action)
    (h : successPhases env = false) (ha : a ∈ mainPhases env) :
    (∃ s, a = Action.event (Event.debug s)) ∨
    a = Action.event (Event.error "Unknown error") ∨
    a = Action.event (Event.error "Cant create necessary directories on destination system") ∨
    a = Action.installSystem ∨ a = Action.configureSystem ∨
    a = Action.installBootloader ∨ a = Action.joinQueue ∨ a = Action.exitProcess := by
  unfold successPhases at h
  unfold mainPhases at ha
  cases hd : env.dirsOk <;> cases hi : env.installOk <;> cases hc : env.configureOk <;>
    cases hw : env.wantBootloader <;> cases hb : env.bootloaderOk <;>
    rw [hd, hi, hc, hw, hb] at h ha <;>
    simp only [Bool.true_and, Bool.false_and, Bool.and_true, Bool.and_false,
      Bool.not_true, Bool.not_false, Bool.true_or, Bool.false_or, Bool.or_true,
      Bool.or_false] at h <;>
    first
      | exact Bool.noConfusion h
      | (simp [fatalSeq] at ha; aesop)

/-- When the mandatory mounts succeed, `mountRootBoot` continues and its
actions are debug events and the root/boot mounts. -/
theorem mountRootBoot_ok (env : RunEnv) (h : env.rootBootMountOk = true) :
    (mountRootBoot env).2 = true ∧
    ∀ a ∈ (mountRootBoot env).1,
      (∃ e, a = Action.event (Event.debug e)) ∨
      a = Action.mount (rootPartOf env) dest_dir ∨
      a = Action.mount (bootPartOf env) (dest_dir ++ "/boot") := by
  unfold mountRootBoot
  rw [if_pos h]
  refine ⟨rfl, ?_⟩
  intro a ha
  rcases List.mem_append.1 ha with h1 | h1
  · simp only [List.mem_cons, List.not_mem_nil, or_false] at h1
    rcases h1 with rfl | rfl
    · exact Or.inl ⟨_, rfl⟩
    · exact Or.inr (Or.inl rfl)
  · have hb := mem_ite_nil h1
    simp only [List.mem_cons, List.not_mem_nil, or_false] at hb
    rcases hb with rfl | rfl
    · exact Or.inl ⟨_, rfl⟩
    · exact Or.inr (Or.inr rfl)

/-- When the mandatory mounts fail, `mountRootBoot` is the debug event
followed by the fatal sequence, and control does not continue. -/
theorem mountRootBoot_fail (env : RunEnv) (h : env.rootBootMountOk = false) :
    mountRootBoot env =
      ([Action.event (Event.debug ("Mounting partition " ++ rootPartOf env ++
          " into " ++ dest_dir ++ " directory")),
        Action.event (Event.error "Couldnt mount root and boot partitions"),
        Action.joinQueue, Action.exitProcess], false) := by
  unfold mountRootBoot
  rw [if_neg (by rw [h]; exact Bool.false_ne_true)]
  rfl

/-- Whenever control reaches the guarded phases, the run trace is the
pre-phase actions followed by `mainPhases`. -/
theorem run_reaches_eq (env : RunEnv) (h1 : reachesPhases env = true) :
    run env = runPhasesPre env ++ mainPhases env := by
  cases he : env.method
  · have ha : env.autoOk = true := by
      unfold reachesPhases at h1; rw [he] at h1; exact h1
    simp [run, runPhasesPre, he, ha]
  · have hr : env.rootBootMountOk = true := by
      unfold reachesPhases at h1; rw [he] at h1; exact h1
    have h2 := (mountRootBoot_ok env hr).1
    simp [run, runPhasesPre, he, h2]
  · have hr : env.rootBootMountOk = true := by
      unfold reachesPhases at h1; rw [he] at h1; exact h1
    have h2 := (mountRootBoot_ok env hr).1
    simp [run, runPhasesPre, he, h2]

/-- On a fully successful pass, the run trace is `runPre` followed by
`finalizeTail`. -/
theorem run_success_eq (env : RunEnv) (h1 : reachesPhases env = true)
    (h2 : successPhases env = true) :
    run env = runPre env ++ finalizeTail env := by
  rw [run_reaches_eq env h1, mainPhases_success env h2, runPre,
    List.append_assoc]

/-- Every pre-phase action is an event, a provisioning marker or a mount. -/
theorem runPhasesPre_members (env : RunEnv) (a : Action)
    (h1 : reachesPhases env = true) (ha : a ∈ runPhasesPre env) :
    (∃ e, a = Action.event e) ∨ a = Action.autoPartition ∨
    a = Action.alongsidePrep ∨ ∃ d dir, a = Action.mount d dir := by
  cases he : env.method
  · rw [runPhasesPre, he] at ha
    simp only [List.mem_cons, List.not_mem_nil, or_false] at ha
    rcases ha with rfl | rfl
    · exact Or.inl ⟨_, rfl⟩
    · exact Or.inr (Or.inl rfl)
  · have hr : env.rootBootMountOk = true := by
      unfold reachesPhases at h1; rw [he] at h1; exact h1
    rw [runPhasesPre, he] at ha
    rcases List.mem_append.1 ha with h | h
    · simp only [List.mem_cons, List.not_mem_nil, or_false] at h
      subst h
      exact Or.inr (Or.inr (Or.inl rfl))
    · rcases (mountRootBoot_ok env hr).2 a h with ⟨e, rfl⟩ | rfl | rfl
      · exact Or.inl ⟨_, rfl⟩
      · exact Or.inr (Or.inr (Or.inr ⟨_, _, rfl⟩))
      · exact Or.inr (Or.inr (Or.inr ⟨_, _, rfl⟩))
  · have hr : env.rootBootMountOk = true := by
      unfold reachesPhases at h1; rw [he] at h1; exact h1
    rw [runPhasesPre, he] at ha
    rcases List.mem_append.1 ha with h | h
    · rcases (mountRootBoot_ok env hr).2 a h with ⟨e, rfl⟩ | rfl | rfl
      · exact Or.inl ⟨_, rfl⟩
      · exact Or.inr (Or.inr (Or.inr ⟨_, _, rfl⟩))
      · exact Or.inr (Or.inr (Or.inr ⟨_, _, rfl⟩))
    · rcases mountSecondary_members env a h with ⟨e, rfl⟩ | ⟨d, dir, rfl⟩
      · exact Or.inl ⟨_, rfl⟩
      · exact Or.inr (Or.inr (Or.inr ⟨_, _, rfl⟩))

/-- Every element of `runPre` is an event, a provisioning marker, a mount
or a phase marker — never an unmount, the log copy or the queue join. -/
theorem runPre_members (env : RunEnv) (a : Action)
    (h1 : reachesPhases env = true) (ha : a ∈ runPre env) :
    (∃ e, a = Action.event e) ∨ a = Action.autoPartition ∨
    a = Action.alongsidePrep ∨ (∃ d dir, a = Action.mount d dir) ∨
    a = Action.installSystem ∨ a = Action.configureSystem ∨
    a = Action.installBootloader := by
  rcases List.mem_append.1 ha with h | h
  · rcases runPhasesPre_members env a h1 h with h | h | h | h
    · exact Or.inl h
    · exact Or.inr (Or.inl h)
    · exact Or.inr (Or.inr (Or.inl h))
    · exact Or.inr (Or.inr (Or.inr (Or.inl h)))
  · rcases mainPrefix_members env a h with h | h | h | h
    · exact Or.inl h
    · exact Or.inr (Or.inr (Or.inr (Or.inr (Or.inl h))))
    · exact Or.inr (Or.inr (Or.inr (Or.inr (Or.inr (Or.inl h)))))
    · exact Or.inr (Or.inr (Or.inr (Or.inr (Or.inr (Or.inr h)))))

/-- `String.append` cancels on the left. -/
theorem string_append_left_cancel {s a b : String} (h : s ++ a = s ++ b) :
    a = b := by
  have hd := congrArg String.data h
  simp only [String.data_append] at hd
  exact String.ext (List.append_cancel_left hd)

/-! ### Theorems for claims about the event channel and orchestrator -/

/-- C1 counterexample: on a full channel even the terminal events are
dropped — `queue_fatal_event` leaves the buffer unchanged (the `error`
event is never delivered) and enqueuing `finished` is likewise a silent
drop. -/
theorem terminal_event_dropped_counterexample :
    (queue_fatal_event fullChannel "boom").1 = fullChannel ∧
    Event.error "boom" ∉ (queue_fatal_event fullChannel "boom").1.buffer ∧
    queue_event fullChannel Event.finished = fullChannel := by
  refine ⟨by decide, by decide, by decide⟩

/-- C1 amended: every enqueue, terminal events included, drops the event
and returns when the channel is full and never blocks; the fatal path
still waits for the consumer to drain the channel (queue join) before
`os._exit`, while the `finished` event is enqueued best-effort with no
drain wait — the success trace contains `finished` and no queue join. -/
theorem event_channel_semantics :
    (∀ c e, queue_event c e =
      if c.buffer.length < c.capacity then ⟨c.capacity, c.buffer ++ [e]⟩ else c) ∧
    (∀ c txt, queue_fatal_event c txt =
      (queue_event c (Event.error txt),
       [Action.event (Event.error txt), Action.joinQueue, Action.exitProcess])) ∧
    (∀ env : RunEnv, reachesPhases env = true → successPhases env = true →
      Action.event Event.finished ∈ run env ∧ Action.joinQueue ∉ run env) := by
  refine ⟨?_, ?_, ?_⟩
  · intro c e
    unfold queue_event put_nowait
    split_ifs <;> rfl
  · intro c txt
    rfl
  · intro env h1 h2
    rw [run_success_eq env h1 h2]
    constructor
    · apply List.mem_append.2
      right
      unfold finalizeTail
      simp
    · intro hmem
      rcases List.mem_append.1 hmem with h | h
      · rcases runPre_members env _ h1 h with ⟨e, he⟩ | he | he | ⟨d, dir, he⟩ |
          he | he | he <;> exact Action.noConfusion he
      · rcases finalizeTail_members env _ h with he | he | ⟨s, he⟩ | ⟨dd, he⟩ |
          ⟨e, he⟩ | he <;> exact Action.noConfusion he

/-- Witness for C1 on a concrete all-success advanced run. -/
theorem event_channel_semantics_witness :
    Action.event Event.finished ∈ run envSuccess ∧
    Action.joinQueue ∉ run envSuccess :=
  event_channel_semantics.2.2 envSuccess (by decide) (by decide)

/-- C2 counterexample: when `install_system` raises, the worker queues the
fatal error and exits — the Finalize sequence (log copy, special-dir and
mount-table unmounts, root unmount) never runs. -/
theorem finalize_skipped_on_failure_counterexample :
    Action.copyLog ∉ run envInstallFail ∧
    Action.umountSpecialDirs ∉ run envInstallFail ∧
    Action.umount dest_dir ∉ run envInstallFail ∧
    Action.event Event.finished ∉ run envInstallFail ∧
    Action.event (Event.error "Unknown error") ∈ run envInstallFail ∧
    Action.exitProcess ∈ run envInstallFail := by
  refine ⟨by decide, by decide, by decide, by decide, by decide, by decide⟩

/-- C2 amended: the Finalize sequence runs exactly on the success path —
when provisioning/mounting succeeded and installing, configuring and any
requested bootloader install all succeed, the run ends with `finalizeTail`
(log copy, then the unmounts with the install root last) and nothing
before it unmounts or copies the log; on every failure path no log copy
and no unmount happens at all. -/
theorem finalize_only_on_success (env : RunEnv) :
    (reachesPhases env = true → successPhases env = true →
      run env = runPre env ++ finalizeTail env ∧
      ∀ a ∈ runPre env, isUmountAction a = false ∧ a ≠ Action.copyLog) ∧
    ((reachesPhases env && successPhases env) = false →
      Action.copyLog ∉ run env ∧ ∀ a ∈ run env, isUmountAction a = false) ∧
    (env.destMounted = true →
      (finalizeTail env).filter isUmountAction =
        [Action.umountSpecialDirs] ++
        (if env.sourcesMounted = true then
          [Action.umountSource "/source", Action.umountSource "/source_desktop"]
         else []) ++
        ((env.mount_devices.filter fun pd =>
            pd.1 != "/" && pd.1 != "swap" && pd.1 != "").map fun pd =>
          Action.umount (dest_dir ++ pd.1)) ++
        [Action.umount dest_dir]) := by
  refine ⟨?_, ?_, ?_⟩
  · intro h1 h2
    refine ⟨run_success_eq env h1 h2, ?_⟩
    intro a ha
    rcases runPre_members env a h1 ha with ⟨e, rfl⟩ | rfl | rfl | ⟨d, dir, rfl⟩ |
      rfl | rfl | rfl <;> exact ⟨rfl, by intro hc; exact Action.noConfusion hc⟩
  · intro hf
    by_cases h1 : reachesPhases env = true
    · have h2 : successPhases env = false := by
        cases hs : successPhases env
        · rfl
        · rw [h1, hs] at hf; cases hf
      rw [run_reaches_eq env h1]
      constructor
      · intro hmem
        rcases List.mem_append.1 hmem with h | h
        · rcases runPhasesPre_members env _ h1 h with ⟨e, he⟩ | he | he |
            ⟨d, dir, he⟩ <;> exact Action.noConfusion he
        · rcases mainPhases_failure_members env _ h2 h with ⟨s, he⟩ | he | he |
            he | he | he | he | he <;> exact Action.noConfusion he
      · intro a ha
        rcases List.mem_append.1 ha with h | h
        · rcases runPhasesPre_members env a h1 h with ⟨e, rfl⟩ | rfl | rfl |
            ⟨d, dir, rfl⟩ <;> rfl
        · rcases mainPhases_failure_members env a h2 h with ⟨s, rfl⟩ | rfl | rfl |
            rfl | rfl | rfl | rfl | rfl <;> rfl
    · have h1f : reachesPhases env = false := by
        cases hr : reachesPhases env
        · rfl
        · exact absurd hr h1
      cases he : env.method
      · have ha : env.autoOk = false := by
          unfold reachesPhases at h1f; rw [he] at h1f; exact h1f
        have hrun : run env =
            [Action.event (Event.debug "Creating partitions and their filesystems"),
             Action.event (Event.error "Error creating partitions and their filesystems"),
             Action.returnNone] := by
          simp [run, he, ha]
        rw [hrun]
        refine ⟨by simp, ?_⟩
        intro a haa
        simp only [List.mem_cons, List.not_mem_nil, or_false] at haa
        rcases haa with rfl | rfl | rfl <;> rfl
      · have hr : env.rootBootMountOk = false := by
          unfold reachesPhases at h1f; rw [he] at h1f; exact h1f
        have hrun : run env = [Action.alongsidePrep] ++
            ([Action.event (Event.debug ("Mounting partition " ++ rootPartOf env ++
                " into " ++ dest_dir ++ " directory")),
              Action.event (Event.error "Couldnt mount root and boot partitions"),
              Action.joinQueue, Action.exitProcess] ++ []) := by
          simp [run, he, mountRootBoot_fail env hr]
        rw [hrun]
        refine ⟨by simp, ?_⟩
        intro a haa
        simp only [List.cons_append, List.nil_append, List.append_nil,
          List.mem_cons, List.not_mem_nil, or_false] at haa
        rcases haa with rfl | rfl | rfl | rfl | rfl <;> rfl
      · have hr : env.rootBootMountOk = false := by
          unfold reachesPhases at h1f; rw [he] at h1f; exact h1f
        have hrun : run env =
            [Action.event (Event.debug ("Mounting partition " ++ rootPartOf env ++
                " into " ++ dest_dir ++ " directory")),
              Action.event (Event.error "Couldnt mount root and boot partitions"),
              Action.joinQueue, Action.exitProcess] ++ [] := by
          simp [run, he, mountRootBoot_fail env hr]
        rw [hrun]
        refine ⟨by simp, ?_⟩
        intro a haa
        simp only [List.append_nil, List.mem_cons, List.not_mem_nil,
          or_false] at haa
        rcases haa with rfl | rfl | rfl | rfl <;> rfl
  · intro hd
    unfold finalizeTail
    cases hs : env.sourcesMounted <;>
      simp [hd, hs, isUmountAction, List.filter_append, List.filter_map,
        Function.comp, List.filter_true]

/-- Witness for C2: the success path of a concrete run decomposes into its
Finalize tail, and a concrete failing run unmounts nothing. -/
theorem finalize_only_on_success_witness :
    (run envSuccess = runPre envSuccess ++ finalizeTail envSuccess ∧
      ∀ a ∈ runPre envSuccess, isUmountAction a = false ∧ a ≠ Action.copyLog) ∧
    (Action.copyLog ∉ run envInstallFail ∧
      ∀ a ∈ run envInstallFail, isUmountAction a = false) :=
  ⟨(finalize_only_on_success envSuccess).1 (by decide) (by decide),
   (finalize_only_on_success envInstallFail).2.1 (by decide)⟩

/-- C8: in advanced mode a root/boot mount failure queues the fatal error
and terminates the worker without ever reaching the configure phase (or
even the transfer phase); when root/boot mount, a failed secondary mount
is logged with a debug event, that mount is skipped, and the run still
continues into the following phases. -/
theorem mount_failure_semantics (env : RunEnv) (hm : env.method = Method.advanced) :
    (env.rootBootMountOk = false →
      run env =
        [Action.event (Event.debug ("Mounting partition " ++ rootPartOf env ++
            " into " ++ dest_dir ++ " directory")),
         Action.event (Event.error "Couldnt mount root and boot partitions"),
         Action.joinQueue, Action.exitProcess] ∧
      Action.installSystem ∉ run env ∧ Action.configureSystem ∉ run env) ∧
    (env.rootBootMountOk = true → env.dirsOk = true →
      Action.installSystem ∈ run env ∧
      ∀ p dev, (p, dev) ∈ env.mount_devices →
        dev ≠ rootPartOf env → dev ≠ bootPartOf env → dev ≠ swapPartOf env →
        env.secondaryOk p = false →
        Action.event (Event.debug ("Cant mount " ++ dev ++ " in " ++
          (dest_dir ++ p))) ∈ run env ∧
        Action.mount dev (dest_dir ++ p) ∉ run env) := by
  constructor
  · intro hr
    have hrun : run env =
        [Action.event (Event.debug ("Mounting partition " ++ rootPartOf env ++
            " into " ++ dest_dir ++ " directory")),
         Action.event (Event.error "Couldnt mount root and boot partitions"),
         Action.joinQueue, Action.exitProcess] := by
      simp [run, hm, mountRootBoot_fail env hr]
    refine ⟨hrun, ?_, ?_⟩ <;> rw [hrun] <;> simp
  · intro hr hd
    have h1 : reachesPhases env = true := by
      unfold reachesPhases
      rw [hm]
      exact hr
    have hrr := run_reaches_eq env h1
    constructor
    · rw [hrr]
      apply List.mem_append.2
      right
      unfold mainPhases
      rw [if_pos hd]
      simp
    · intro p dev hpd hroot hboot hswap hfail
      constructor
      · rw [hrr]
        apply List.mem_append.2
        left
        simp only [runPhasesPre, hm]
        apply List.mem_append.2
        right
        unfold mountSecondary
        rw [if_pos hm]
        apply List.mem_flatten.2
        refine ⟨_, List.mem_map.2 ⟨(p, dev), hpd, rfl⟩, ?_⟩
        rw [if_pos ⟨hroot, hboot, hswap⟩,
          if_neg (by rw [hfail]; exact Bool.false_ne_true)]
        simp
      · rw [hrr]
        intro hmem
        rcases List.mem_append.1 hmem with h | h
        · simp only [runPhasesPre, hm] at h
          rcases List.mem_append.1 h with h2 | h2
          · rcases (mountRootBoot_ok env hr).2 _ h2 with ⟨e, he⟩ | he | he
            · exact Action.noConfusion he
            · exact hroot (Action.mount.inj he).1
            · exact hboot (Action.mount.inj he).1
          · obtain ⟨q, hq, hsq, hdir⟩ := mount_mem_mountSecondary env _ _ h2
            rw [string_append_left_cancel hdir] at hfail
            rw [hfail] at hsq
            exact Bool.noConfusion hsq
        · rcases mainPhases_members env _ h with ⟨e, he⟩ | he | he | he | he |
            he | he | he | ⟨s, he⟩ | ⟨dd, he⟩ | he <;> exact Action.noConfusion he

/-- Witness for C8 on concrete advanced-mode runs: one whose root mount
fails (fatal, no transfer/configure) and one whose `/home` mount fails
(skipped, run continues). -/
theorem mount_failure_semantics_witness :
    (Action.installSystem ∉ run envRootMountFail ∧
     Action.configureSystem ∉ run envRootMountFail) ∧
    (Action.installSystem ∈ run envSecondaryFail ∧
     Action.event (Event.debug ("Cant mount " ++ "/dev/sda4" ++ " in " ++
       (dest_dir ++ "/home"))) ∈ run envSecondaryFail ∧
     Action.mount "/dev/sda4" (dest_dir ++ "/home") ∉ run envSecondaryFail) := by
  have h1 := (mount_failure_semantics envRootMountFail (by decide)).1 (by decide)
  have h2 := (mount_failure_semantics envSecondaryFail (by decide)).2 (by decide)
    (by decide)
  have h3 := h2.2 "/home" "/dev/sda4" (by decide) (by decide) (by decide)
    (by decide) (by decide)
  exact ⟨⟨h1.2.1, h1.2.2⟩, h2.1, h3.1, h3.2⟩

/-! ### Theorems for the transfer progress tracker -/

/-- A progress line contributes its processed count to `numsOf`. -/
theorem numsOf_cons_progress (offset r t : ℤ) (tl : List RsyncLine) :
    numsOf offset (RsyncLine.progress r t :: tl) =
      (t - r + offset) :: numsOf offset tl := by
  simp [numsOf, processedVals]

/-- A filename line contributes nothing to `numsOf`. -/
theorem numsOf_cons_filename (offset : ℤ) (s : String) (tl : List RsyncLine) :
    numsOf offset (RsyncLine.filename s :: tl) = numsOf offset tl := by
  simp [numsOf, processedVals]

/-- The reader loop's emitted percents, for any starting accumulator. -/
theorem copyFold_snd (total offset : ℤ) (lines : List RsyncLine)
    (st : ℤ × List ℚ) :
    (lines.foldl (copyStep total offset) st).2 = st.2 ++ emitsOf total offset lines := by
  induction lines generalizing st with
  | nil => simp [emitsOf, numsOf, processedVals]
  | cons l tl ih =>
    cases l with
    | progress r t =>
      rw [List.foldl_cons, ih]
      by_cases hnum : (t - r + offset) % 100 = 0 <;>
        simp [copyStep, emitsOf, numsOf, processedVals, hnum, List.filter_cons]
    | filename name =>
      rw [List.foldl_cons, ih]
      simp [copyStep, emitsOf, numsOf, processedVals]

/-- The reader loop's final `num_files_copied`, for any starting
accumulator: the last progress count, or the starting value if no
progress line arrived. -/
theorem copyFold_fst (total offset : ℤ) (lines : List RsyncLine)
    (st : ℤ × List ℚ) :
    (lines.foldl (copyStep total offset) st).1 =
      ((numsOf offset lines).getLast?).getD st.1 := by
  induction lines generalizing st with
  | nil => simp [numsOf, processedVals]
  | cons l tl ih =>
    cases l with
    | progress r t =>
      rw [List.foldl_cons, ih, numsOf_cons_progress]
      cases htl : numsOf offset tl with
      | nil => simp [copyStep]
      | cons b tl2 =>
        rw [List.getLast?_cons_cons]
        obtain ⟨y, hy⟩ : ∃ y, (b :: tl2).getLast? = some y :=
          ⟨_, List.getLast?_eq_getLast _ (by simp)⟩
        rw [hy]
        simp
    | filename name =>
      rw [List.foldl_cons, ih, numsOf_cons_filename]
      rfl

/-- `fileCopyRun`, percent stream component. -/
theorem fileCopyRun_snd (total offset : ℤ) (lines : List RsyncLine) :
    (fileCopyRun total offset lines).2 = emitsOf total offset lines := by
  unfold fileCopyRun
  rw [copyFold_snd]
  simp

/-- `fileCopyRun`, final-count component. -/
theorem fileCopyRun_fst (total offset : ℤ) (lines : List RsyncLine) :
    (fileCopyRun total offset lines).1 =
      ((numsOf offset lines).getLast?).getD 0 := by
  unfold fileCopyRun
  rw [copyFold_fst]

/-- In a `≤`-sorted integer list, every element is at most the last. -/
theorem pairwise_le_of_getLast? :
    ∀ (l : List ℤ), l.Pairwise (· ≤ ·) → ∀ y, l.getLast? = some y →
      ∀ x ∈ l, x ≤ y := by
  intro l
  induction l with
  | nil =>
    intro _ y hy
    cases hy
  | cons a tl ih =>
    intro hp y hy x hx
    cases htl : tl with
    | nil =>
      subst htl
      simp only [List.getLast?_singleton, Option.some.injEq] at hy
      subst hy
      simp only [List.mem_cons, List.not_mem_nil, or_false] at hx
      subst hx
      exact le_rfl
    | cons b tl2 =>
      rw [htl, List.getLast?_cons_cons] at hy
      rcases List.mem_cons.1 hx with rfl | hx2
      · have hmem : y ∈ tl := by
          rw [htl]
          exact List.mem_of_getLast?_eq_some hy
        exact (List.pairwise_cons.1 hp).1 y hmem
      · exact ih (List.pairwise_cons.1 hp).2 y (by rw [htl]; exact hy) x hx2

/-- `numsOf` at offset 0 is just the processed counts. -/
theorem numsOf_zero (lines : List RsyncLine) :
    numsOf 0 lines = processedVals lines := by
  simp [numsOf]

/-- Membership in the emitted percents. -/
theorem mem_emitsOf {total offset : ℤ} {lines : List RsyncLine} {x : ℚ}
    (hx : x ∈ emitsOf total offset lines) :
    ∃ n ∈ numsOf offset lines, x = (n : ℚ) / (total : ℚ) := by
  unfold emitsOf at hx
  rcases List.mem_map.1 hx with ⟨n, hn, hfn⟩
  exact ⟨n, (List.mem_filter.1 hn).1, hfn.symm⟩

/-- Sorted processed counts give sorted emitted percents. -/
theorem emitsOf_pairwise {total offset : ℤ} {lines : List RsyncLine}
    (ht : (0:ℚ) < (total:ℚ))
    (hp : (processedVals lines).Pairwise (· ≤ ·)) :
    (emitsOf total offset lines).Pairwise (· ≤ ·) := by
  unfold emitsOf
  have h1 : (numsOf offset lines).Pairwise (· ≤ ·) :=
    List.Pairwise.map _ (fun a b hab => add_le_add_right hab offset) hp
  have h2 : ((numsOf offset lines).filter fun n => n % 100 == 0).Pairwise
      (· ≤ · : ℤ → ℤ → Prop) :=
    List.Pairwise.filter _ h1
  exact List.Pairwise.map _
    (fun a b hab => (div_le_div_iff_of_pos_right ht).2 (by exact_mod_cast hab)) h2

/-- Every `numsOf` value is bounded by the final count of its phase. -/
theorem numsOf_le_final (total offset : ℤ) (lines : List RsyncLine)
    (hp : (numsOf offset lines).Pairwise (· ≤ ·)) :
    ∀ x ∈ numsOf offset lines, x ≤ (fileCopyRun total offset lines).1 := by
  intro x hx
  rw [fileCopyRun_fst]
  cases hl : (numsOf offset lines).getLast? with
  | none =>
    rw [List.getLast?_eq_none_iff] at hl
    rw [hl] at hx
    cases hx
  | some y =>
    simpa using pairwise_le_of_getLast? _ hp y hl x hx

/-- C7: across the two chained copy sub-phases the emitted percent stream
is monotonically non-decreasing: the second sub-phase continues from the
first one's final offset against the one precomputed total, so no emitted
percentage (the forced final 100% included) is lower than an earlier one —
given that each rsync subprocess reports non-decreasing processed counts,
the second phase's counts are non-negative, and the final counts stay
within the precomputed total. -/
theorem transfer_percent_monotone (total : ℤ) (lines1 lines2 : List RsyncLine)
    (hp1 : (processedVals lines1).Pairwise (· ≤ ·))
    (hp2 : (processedVals lines2).Pairwise (· ≤ ·))
    (hn2 : ∀ v ∈ processedVals lines2, 0 ≤ v)
    (ht : 0 < total)
    (hle1 : (fileCopyRun total 0 lines1).1 ≤ total)
    (hle2 : (fileCopyRun total (fileCopyRun total 0 lines1).1 lines2).1 ≤ total) :
    (install_system_percents total lines1 lines2).Pairwise (· ≤ ·) := by
  have htq : (0:ℚ) < (total:ℚ) := by exact_mod_cast ht
  have hnums1 : (numsOf 0 lines1).Pairwise (· ≤ ·) := by
    rw [numsOf_zero]; exact hp1
  have hnums2 : (numsOf (fileCopyRun total 0 lines1).1 lines2).Pairwise (· ≤ ·) :=
    List.Pairwise.map _ (fun a b hab => add_le_add_right hab _) hp2
  have hb1 : ∀ x ∈ numsOf 0 lines1, x ≤ (fileCopyRun total 0 lines1).1 :=
    numsOf_le_final total 0 lines1 hnums1
  have hb2top : ∀ x ∈ numsOf (fileCopyRun total 0 lines1).1 lines2,
      x ≤ (fileCopyRun total (fileCopyRun total 0 lines1).1 lines2).1 :=
    numsOf_le_final total _ lines2 hnums2
  have hb2bot : ∀ x ∈ numsOf (fileCopyRun total 0 lines1).1 lines2,
      (fileCopyRun total 0 lines1).1 ≤ x := by
    intro x hx
    rcases List.mem_map.1 hx with ⟨p, hp, rfl⟩
    have := hn2 p hp
    linarith
  have hle1' : ∀ a ∈ emitsOf total 0 lines1, a ≤ 1 := by
    intro a ha
    obtain ⟨n, hn, rfl⟩ := mem_emitsOf ha
    rw [div_le_one htq]
    exact_mod_cast le_trans (hb1 n hn) hle1
  have hle2' : ∀ b ∈ emitsOf total (fileCopyRun total 0 lines1).1 lines2, b ≤ 1 := by
    intro b hb
    obtain ⟨m, hm, rfl⟩ := mem_emitsOf hb
    rw [div_le_one htq]
    exact_mod_cast le_trans (hb2top m hm) hle2
  have hcross : ∀ a ∈ emitsOf total 0 lines1,
      ∀ b ∈ emitsOf total (fileCopyRun total 0 lines1).1 lines2, a ≤ b := by
    intro a ha b hb
    obtain ⟨n, hn, rfl⟩ := mem_emitsOf ha
    obtain ⟨m, hm, rfl⟩ := mem_emitsOf hb
    refine (div_le_div_iff_of_pos_right htq).2 ?_
    exact_mod_cast le_trans (hb1 n hn) (hb2bot m hm)
  have hgoal : install_system_percents total lines1 lines2 =
      (emitsOf total 0 lines1 ++
        emitsOf total (fileCopyRun total 0 lines1).1 lines2) ++ [1] := by
    simp only [install_system_percents]
    rw [fileCopyRun_snd, fileCopyRun_snd]
  rw [hgoal]
  refine List.pairwise_append.2 ⟨List.pairwise_append.2
    ⟨emitsOf_pairwise htq hp1, emitsOf_pairwise htq hp2, hcross⟩,
    List.pairwise_singleton _ _, ?_⟩
  intro a ha b hb
  simp only [List.mem_cons, List.not_mem_nil, or_false] at hb
  subst hb
  rcases List.mem_append.1 ha with h | h
  · exact hle1' a h
  · exact hle2' a h

/-- Witness for C7 on two concrete sub-phases: 100 files processed in the
first phase, 100 more in the second, total 200. -/
theorem transfer_percent_monotone_witness :
    (install_system_percents 200 [RsyncLine.progress 0 100]
      [RsyncLine.progress 0 100]).Pairwise (· ≤ ·) :=
  transfer_percent_monotone 200 [RsyncLine.progress 0 100]
    [RsyncLine.progress 0 100] (by decide) (by decide) (by decide) (by decide)
    (by decide) (by decide)

end Thus
